import Mathlib

set_option maxHeartbeats 1000000

/-!
Shallow embedding of the analytic-expectation rule set in
`gpflow/expectations/misc.py` and of the HMC sampling adapter in
`gpflow/optimizers/mcmc.py`.

Tensors are modelled as dimension-annotated total functions into the
rationals; the tensor backend operations (adjoint, matmul, tile, diag,
slicing, broadcasting) are translated from their TensorFlow semantics.
The dispatch resolution itself lives in `gpflow/expectations/dispatch.py`,
which is not part of the sources under scrutiny; it is modelled from the
spec (most-specific rule first, exact type outranking ancestor types,
position by position with the distribution position first), with oracle
registries standing for the rules registered outside `misc.py`.
-/

/-- Rank-1 tensor: a vector with an explicit length. -/
@[ext]
structure Tensor1 where
  len : Nat
  entry : Nat → Rat

/-- Rank-2 tensor: a matrix with explicit dimensions. -/
@[ext]
structure Tensor2 where
  rows : Nat
  cols : Nat
  entry : Nat → Nat → Rat

/-- Rank-3 tensor. -/
@[ext]
structure Tensor3 where
  dim0 : Nat
  dim1 : Nat
  dim2 : Nat
  entry : Nat → Nat → Nat → Rat

/-- Rank-4 tensor; used only for the MarkovGaussian covariance, which carries
a leading block axis in front of the time axis. -/
@[ext]
structure Tensor4 where
  dim0 : Nat
  dim1 : Nat
  dim2 : Nat
  dim3 : Nat
  entry : Nat → Nat → Nat → Nat → Rat

/-- Matrix transpose (tf.linalg.adjoint on a rank-2 tensor). -/
def transposeM (m : Tensor2) : Tensor2 :=
  ⟨m.cols, m.rows, fun i j => m.entry j i⟩

/-- Swap of the last two axes of a rank-3 tensor (tf.linalg.adjoint). -/
def adjoint3 (x : Tensor3) : Tensor3 :=
  ⟨x.dim0, x.dim2, x.dim1, fun n i j => x.entry n j i⟩

/-- A tensor of any of the ranks the expectation dispatcher can return. -/
inductive Tensor
  | t1 (v : Tensor1)
  | t2 (m : Tensor2)
  | t3 (x : Tensor3)

/-- tf.linalg.adjoint: swap the last two axes (rank-1 input never occurs in
the rules below; it is left unchanged). -/
def Tensor.adjoint : Tensor → Tensor
  | .t1 v => .t1 v
  | .t2 m => .t2 (transposeM m)
  | .t3 x => .t3 (adjoint3 x)

/-- tf.tile(A[None, :, :], (N, 1, 1)): stack N copies of a matrix. -/
def tile (A : Tensor2) (N : Nat) : Tensor3 :=
  ⟨N, A.rows, A.cols, fun _ d q => A.entry d q⟩

/-- tf.linalg.matmul(X, Y, transpose_a=True) on batched rank-3 tensors:
contract over the middle axis of both operands. -/
def matmulTransposeA (X Y : Tensor3) : Tensor3 :=
  ⟨X.dim0, X.dim2, Y.dim2,
    fun n i j => ∑ d ∈ Finset.range X.dim1, X.entry n d i * Y.entry n d j⟩

/-- Batched multiplication of an unbatched matrix B against a rank-3 tensor X,
as in the spec's "batched matmul of A-transposed with exKxz". -/
def batchedMatmulLeft (B : Tensor2) (X : Tensor3) : Tensor3 :=
  ⟨X.dim0, B.rows, X.dim2,
    fun n q m => ∑ d ∈ Finset.range B.cols, B.entry q d * X.entry n d m⟩

/-- b[None, :, None] * e[:, None, :]: the outer-product broadcast of a vector
with an NxM matrix, giving an NxQxM tensor. -/
def outerBroadcast (b : Tensor1) (e : Tensor2) : Tensor3 :=
  ⟨e.rows, b.len, e.cols, fun n q m => b.entry q * e.entry n m⟩

/-- c[..., None] * e[:, None, :] for an NxQ matrix c and an NxM matrix e. -/
def broadcastColProd (c e : Tensor2) : Tensor3 :=
  ⟨c.rows, c.cols, e.cols, fun n q m => c.entry n q * e.entry n m⟩

/-- Elementwise addition of rank-3 tensors (shapes agree at every use site). -/
def add3 (X Y : Tensor3) : Tensor3 :=
  ⟨X.dim0, X.dim1, X.dim2, fun n i j => X.entry n i j + Y.entry n i j⟩

/-- tf.linalg.diag: embed per-dimension variances (NxD) as a batch of diagonal
matrices (NxDxD). -/
def diagMat (c : Tensor2) : Tensor3 :=
  ⟨c.rows, c.cols, c.cols, fun n i j => if i = j then c.entry n i else 0⟩

/-- mu[:-1]: drop the last time step. -/
def dropLastRows (m : Tensor2) : Tensor2 :=
  ⟨m.rows - 1, m.cols, m.entry⟩

/-- mu[1:]: drop the first time step. -/
def tailRows (m : Tensor2) : Tensor2 :=
  ⟨m.rows - 1, m.cols, fun i j => m.entry (i + 1) j⟩

/-- cov[0, :-1]: the first covariance block with the last time step dropped. -/
def covBlockInit (c : Tensor4) : Tensor3 :=
  ⟨c.dim1 - 1, c.dim2, c.dim3, fun t i j => c.entry 0 t i j⟩

/-- cov[0, 1:]: the first covariance block with the first time step dropped. -/
def covBlockTail (c : Tensor4) : Tensor3 :=
  ⟨c.dim1 - 1, c.dim2, c.dim3, fun t i j => c.entry 0 (t + 1) i j⟩

/-- Kernel classes as the dispatcher distinguishes them: kernels.Linear and
every other Kernel subclass. -/
inductive Kern
  | Linear
  | Other (id : Nat)

/-- Whether a kernel is an instance of kernels.Linear. -/
def Kern.isLinear : Kern → Bool
  | .Linear => true
  | .Other _ => false

/-- Mean-function classes: Identity (carrying its input dimension, as
mfn.Identity(D)), Linear (with weights A and offset b), Constant (with the
constant vector c), or any other MeanFunction subclass. In the source
hierarchy Identity is a subclass of Linear; here the constructors are
disjoint and the dispatcher checks Identity first, realising the
exact-type-outranks-ancestor requirement of the spec. -/
inductive MeanFn
  | Identity (inputDim : Nat)
  | Linear (A : Tensor2) (b : Tensor1)
  | Constant (c : Tensor1)
  | OtherMean (id : Nat)

/-- Inducing features: InducingPoints or any other InducingFeature subclass. -/
inductive Feat
  | InducingPoints
  | OtherFeature (id : Nat)

/-- The operator slot of a term: a kernel or a mean function. -/
inductive Obj
  | kern (k : Kern)
  | mean (m : MeanFn)

/-- Full-covariance Gaussian: mean NxD and covariance NxDxD. -/
structure Gaussian where
  mu : Tensor2
  cov : Tensor3

/-- Diagonal Gaussian: mean NxD and per-dimension variances NxD. -/
structure DiagonalGaussian where
  mu : Tensor2
  cov : Tensor2

/-- Markov-chain Gaussian: mean NxD and covariance with a leading block axis
(auto and cross blocks between consecutive steps). -/
structure MarkovGaussian where
  mu : Tensor2
  cov : Tensor4

/-- The distribution variants the dispatcher discriminates on. -/
inductive ProbDist
  | gaussian (g : Gaussian)
  | diagonal (d : DiagonalGaussian)
  | markov (g : MarkovGaussian)

/-- Whether the distribution is a full Gaussian or a MarkovGaussian, the
domain of the Union[MarkovGaussian, Gaussian] signatures in misc.py. -/
def ProbDist.isGaussianOrMarkov : ProbDist → Bool
  | .gaussian _ => true
  | .markov _ => true
  | .diagonal _ => false

/-- Modelled from the spec: the dispatch registry of
`gpflow/expectations/dispatch.py` and the rule registrations made outside
`misc.py` are not part of the sources under scrutiny. Each field is an
oracle for a family of externally registered rules, all strictly more
specific than the matching misc.py fallback: `idRule` for kernel-specific
(Gaussian, Identity, None, K, InducingPoints) rules; `plainRule` for plain
kernel expectations (Gaussian, K, feature, None, None); `kfmRule` for
(K, feature, mean-function, None) rules such as the Linear-kernel rule;
`pairRule` for kernel-pair rules; `markovRule` for MarkovGaussian-specific
pair rules. A `none` entry means no such rule is registered. -/
structure Registry where
  idRule : Kern → Option (Gaussian → Option Nat → Tensor3)
  plainRule : Kern → Option (Gaussian → Option Feat → Option Nat → Tensor2)
  kfmRule : Kern → Option (ProbDist → Feat → MeanFn → Option Nat → Tensor3)
  pairRule : Kern → Kern → Option (Gaussian → Option Feat → Option Feat → Option Nat → Tensor3)
  markovRule : Obj → Option Feat → Obj → Option Feat → Option (MarkovGaussian → Option Nat → Tensor3)

/-- Failure outcomes: NotImplementedError raised by the Identity-mean guard,
no matching registered rule, a rule body meeting arrays of the wrong rank,
and exhaustion of the recursion fuel (a diverging dispatch). -/
inductive ExpErr
  | notImplemented
  | noMatchingRule
  | shapeMismatch
  | outOfFuel
deriving DecidableEq

/-- The expectation dispatcher restricted to the rules of
`gpflow/expectations/misc.py` together with the oracle registry. The
resolution order encodes the most-specific-rule-first semantics (modelled
from the spec); each rule body is translated from the source. The fuel
argument makes the re-dispatch recursion structural; a computation that
re-enters itself forever exhausts any fuel. -/
def expectation (reg : Registry) :
    Nat → ProbDist → Option Obj → Option Feat → Option Obj → Option Feat → Option Nat →
    Except ExpErr Tensor
  | 0, _, _, _, _, _, _ => .error .outOfFuel
  | fuel + 1, p, obj1, feat1, obj2, feat2, nghp =>
    match p with
    | .diagonal d =>
      -- misc.py lines 99-103: convert to a full Gaussian and re-invoke.
      expectation reg fuel (.gaussian ⟨d.mu, diagMat d.cov⟩) obj1 feat1 obj2 feat2 nghp
    | .gaussian g =>
      match obj1, feat1, obj2, feat2 with
      | some (.mean (.Identity dIn)), none, some (.kern k), some .InducingPoints =>
        if k.isLinear then
          -- misc.py lines 16-27: transpose delegation; nghp is NOT forwarded.
          Except.map Tensor.adjoint
            (expectation reg fuel (.gaussian g) (some (.kern k)) (some .InducingPoints)
              (some (.mean (.Identity dIn))) none none)
        else
          match reg.idRule k with
          | some r => .ok (.t3 (r g nghp))
          | none =>
            -- misc.py lines 81-92: unconditional recursion guard.
            .error .notImplemented
      | some (.mean (.Linear A b)), none, some (.kern k), some .InducingPoints =>
        -- misc.py lines 60-78: Linear-mean combination formula.
        match expectation reg fuel (.gaussian g) (some (.mean (.Identity g.mu.cols))) none
            (some (.kern k)) (some .InducingPoints) nghp with
        | .error e => .error e
        | .ok (.t3 exKxz) =>
          match expectation reg fuel (.gaussian g) (some (.kern k)) (some .InducingPoints)
              none none nghp with
          | .error e => .error e
          | .ok (.t2 eKxz) =>
            .ok (.t3 (add3 (matmulTransposeA (tile A g.mu.rows) exKxz)
              (outerBroadcast b eKxz)))
          | .ok _ => .error .shapeMismatch
        | .ok _ => .error .shapeMismatch
      | some (.mean (.Constant c)), none, some (.kern k), some .InducingPoints =>
        -- misc.py lines 43-57: Constant-mean combination formula.
        match expectation reg fuel (.gaussian g) (some (.kern k)) (some .InducingPoints)
            none none nghp with
        | .error e => .error e
        | .ok (.t2 eKxz) =>
          .ok (.t3 (broadcastColProd ⟨g.mu.rows, c.len, fun _ q => c.entry q⟩ eKxz))
        | .ok _ => .error .shapeMismatch
      | some (.kern k), some f, some (.mean m), none =>
        match reg.kfmRule k with
        | some r => .ok (.t3 (r (.gaussian g) f m nghp))
        | none =>
          -- misc.py lines 30-40: adjoint delegation; nghp IS forwarded.
          Except.map Tensor.adjoint
            (expectation reg fuel (.gaussian g) (some (.mean m)) none
              (some (.kern k)) (some f) nghp)
      | some (.kern k), f1, none, none =>
        match reg.plainRule k with
        | some r => .ok (.t2 (r g f1 nghp))
        | none => .error .noMatchingRule
      | some (.kern k1), f1, some (.kern k2), f2 =>
        match reg.pairRule k1 k2 with
        | some r => .ok (.t3 (r g f1 f2 nghp))
        | none => .error .noMatchingRule
      | _, _, _, _ => .error .noMatchingRule
    | .markov g =>
      match obj1, feat1, obj2, feat2 with
      | some (.mean (.Identity dIn)), none, some (.kern .Linear), some .InducingPoints =>
        -- misc.py lines 16-27, MarkovGaussian member of the Union; nghp NOT forwarded.
        Except.map Tensor.adjoint
          (expectation reg fuel (.markov g) (some (.kern .Linear)) (some .InducingPoints)
            (some (.mean (.Identity dIn))) none none)
      | some (.kern k), some f, some (.mean m), none =>
        match reg.kfmRule k with
        | some r => .ok (.t3 (r (.markov g) f m nghp))
        | none =>
          -- misc.py lines 30-40 for the MarkovGaussian member of the Union.
          Except.map Tensor.adjoint
            (expectation reg fuel (.markov g) (some (.mean m)) none
              (some (.kern k)) (some f) nghp)
      | oa, fa, ob, fb =>
        -- misc.py lines 108-123: MarkovGaussian conversion fallback.
        match ob with
        | none =>
          expectation reg fuel (.gaussian ⟨dropLastRows g.mu, covBlockInit g.cov⟩)
            oa fa none none nghp
        | some o2v =>
          match oa with
          | none =>
            expectation reg fuel (.gaussian ⟨tailRows g.mu, covBlockTail g.cov⟩)
              (some o2v) fb none none nghp
          | some o1v =>
            match reg.markovRule o1v fa o2v fb with
            | some r => .ok (.t3 (r g nghp))
            | none =>
              -- Re-dispatch of the identical signature (misc.py line 123).
              expectation reg fuel (.markov g) (some o1v) fa (some o2v) fb nghp

/-- A bijective parameter transform, modelled by its forward map and its
forward log-det-Jacobian. Both act on flat value vectors; the source applies
tf.reduce_sum to the log-det-Jacobian, so it is kept vector-valued here. -/
structure Transform where
  forward : List Rat → List Rat
  forwardLogDetJacobian : List Rat → List Rat

/-- A prior distribution object; only its presence matters to the adapter. -/
structure Prior where
  id : Nat

/-- gpflow.base.Parameter, restricted to the fields the adapter reads: the
unconstrained backing value, the optional transform and the optional prior. -/
structure Parameter where
  unconstrainedVariable : List Rat
  transform : Option Transform
  prior : Option Prior

/-- Failure outcome of the adapter constructor (the ValueError of mcmc.py
line 57, the InvalidArgument-class failure of the spec). -/
inductive McmcErr
  | invalidArgument
deriving DecidableEq

/-- The constructed adapter state: the wrapped log-probability callable
(modelled as a function of the constrained parameter values, which is what
the thunk reads), the parameter list, and the unconstrained variables. -/
structure SamplingHelper where
  targetLogProb : List (List Rat) → Rat
  parameters : List Parameter
  variablesList : List (List Rat)

/-- SamplingHelper.__init__ (mcmc.py lines 48-61): reject any parameter
without a prior before any state is stored. -/
def mkSamplingHelper (f : List (List Rat) → Rat) (ps : List Parameter) :
    Except McmcErr SamplingHelper :=
  if ps.all (fun p => p.prior.isSome) then
    .ok ⟨f, ps, ps.map (fun p => p.unconstrainedVariable)⟩
  else
    .error .invalidArgument

/-- The constrained value of a parameter: the forward transform of the
unconstrained backing value, or the backing value itself when there is no
transform. -/
def constrainedValue (p : Parameter) : List Rat :=
  match p.transform with
  | some t => t.forward p.unconstrainedVariable
  | none => p.unconstrainedVariable

/-- The assignment loop of target_log_prob_fn (mcmc.py lines 79-80):
`for v_old, v_new in zip(variables_list, variables): v_old.assign(v_new)`.
zip truncates to the shorter list, exactly as the source does. -/
def assignParams : List Parameter → List (List Rat) → List Parameter
  | ps, [] => ps
  | [], _ => []
  | p :: ps, v :: vs => { p with unconstrainedVariable := v } :: assignParams ps vs

/-- The Jacobian-correction loop of target_log_prob_fn (mcmc.py lines 87-93):
starting from the wrapped log-probability, add the reduced log-det-Jacobian of
each parameter that has a transform, left to right. -/
def addLogDetCorrections : List Parameter → Rat → Rat
  | [], acc => acc
  | p :: rest, acc =>
    match p.transform with
    | some t =>
      addLogDetCorrections rest (acc + (t.forwardLogDetJacobian p.unconstrainedVariable).sum)
    | none => addLogDetCorrections rest acc

/-- The closure returned by SamplingHelper.target_log_prob_fn (mcmc.py lines
77-100): overwrite the unconstrained variables with the supplied values, then
evaluate the wrapped callable on the constrained values and add the Jacobian
corrections. The updated parameter state is returned explicitly because the
source mutates it in place. -/
def targetLogProbFn (h : SamplingHelper) (vals : List (List Rat)) :
    List Parameter × Rat :=
  let ps := assignParams h.parameters vals
  (ps, addLogDetCorrections ps (h.targetLogProb (ps.map constrainedValue)))

/-- Modelled from the spec: the total density-correction term, "for every
parameter that has a transform, the sum of the log-determinant of the
transform's forward Jacobian evaluated at that parameter's current
unconstrained value". -/
def jacobianCorrection (ps : List Parameter) : Rat :=
  (ps.map fun p =>
    match p.transform with
    | some t => (t.forwardLogDetJacobian p.unconstrainedVariable).sum
    | none => 0).sum

/-- A registry with no externally registered rules at all. -/
def emptyReg : Registry :=
  ⟨fun _ => none, fun _ => none, fun _ => none, fun _ _ => none, fun _ _ _ _ => none⟩

/-- A concrete 1x1 Gaussian used by the witnesses. -/
def gauss0 : Gaussian :=
  ⟨⟨1, 1, fun _ _ => 0⟩, ⟨1, 1, 1, fun _ _ _ => 1⟩⟩

/-- A concrete two-step MarkovGaussian used by the witnesses. -/
def markov0 : MarkovGaussian :=
  ⟨⟨2, 1, fun _ _ => 0⟩, ⟨2, 2, 1, 1, fun _ _ _ _ => 1⟩⟩

/-- A concrete rank-3 tensor returned by the witness oracles. -/
def witT3 : Tensor3 := ⟨1, 1, 1, fun _ _ _ => 2⟩

/-- A concrete rank-2 tensor returned by the witness oracles. -/
def witT2 : Tensor2 := ⟨1, 1, fun _ _ => 3⟩

/-- A registry in which every oracle family has a registered rule, used by
the witnesses that need delegated expectations to be defined. -/
def fullReg : Registry :=
  ⟨fun _ => some (fun _ _ => witT3),
   fun _ => some (fun _ _ _ => witT2),
   fun _ => some (fun _ _ _ _ => witT3),
   fun _ _ => some (fun _ _ _ _ => witT3),
   fun _ _ _ _ => some (fun _ _ => witT3)⟩

/-- A concrete weight matrix for the Linear mean function used in witnesses. -/
def witA : Tensor2 := ⟨1, 1, fun _ _ => 5⟩

/-- A concrete offset vector for the Linear mean function used in witnesses. -/
def witB : Tensor1 := ⟨1, fun _ => 7⟩

/-- A concrete transform used by the adapter witnesses. -/
def witTransform : Transform := ⟨fun v => v.map (fun x => x + 1), fun v => v⟩

/-- A concrete parameter with a prior and a transform. -/
def witParam : Parameter := ⟨[1], some witTransform, some ⟨0⟩⟩

/-- A concrete parameter without a prior. -/
def witParamNoPrior : Parameter := ⟨[0], none, none⟩

/-- A concrete sampling adapter used by the target_log_prob_fn witness. -/
def witHelper : SamplingHelper :=
  ⟨fun vs => (vs.map List.sum).sum, [witParam], [[1]]⟩

/-- The concrete statement that the MarkovGaussian both-terms fallback, with
no more specific Markov rule registered for the pair, exhausts every fuel
bound: the re-dispatch selects the fallback itself again with the identical
arguments, so evaluation never terminates. -/
def markovPairUnregisteredDiverges : Prop :=
  ∀ fuel, expectation emptyReg fuel (.markov markov0)
      (some (.kern (.Other 0))) (some .InducingPoints)
      (some (.kern (.Other 1))) (some .InducingPoints) none = .error .outOfFuel

/-- Helper for C6: the source-side tiled transpose_a matmul agrees with the
spec-side batched multiplication by the transposed weight matrix. -/
theorem tileMatmul_eq_batched (A : Tensor2) (X : Tensor3) (N : Nat) (h : X.dim0 = N) :
    matmulTransposeA (tile A N) X = batchedMatmulLeft (transposeM A) X := by
  subst h; rfl

/-- Helper for C7: the correction loop adds exactly the spec-side total
Jacobian correction to its accumulator. -/
theorem addLogDetCorrections_eq (ps : List Parameter) (acc : Rat) :
    addLogDetCorrections ps acc = acc + jacobianCorrection ps := by
  induction ps generalizing acc with
  | nil => simp [addLogDetCorrections, jacobianCorrection]
  | cons p rest ih =>
    cases htr : p.transform with
    | none =>
      simp [addLogDetCorrections, jacobianCorrection, htr, ih,
        List.map_cons, List.sum_cons]
    | some t =>
      simp [addLogDetCorrections, jacobianCorrection, htr, ih,
        List.map_cons, List.sum_cons]
      ring

/-- Helper for C7: when as many values as parameters are supplied, the
assignment loop overwrites every unconstrained backing value. -/
theorem assignParams_unconstrained (ps : List Parameter) (vs : List (List Rat))
    (h : vs.length = ps.length) :
    (assignParams ps vs).map (fun p => p.unconstrainedVariable) = vs := by
  induction ps generalizing vs with
  | nil => cases vs with
    | nil => rfl
    | cons v vs => simp at h
  | cons p rest ih =>
    cases vs with
    | nil => simp at h
    | cons v vs => simp [assignParams, ih vs (by simpa using h)]

/-- C1: For every Gaussian distribution p, every kernel K that is not the
Linear kernel and has no kernel-specific rule registered for the
(Identity mean, none, K, InducingPoints) signature, and the InducingPoints
feature, the generic Identity-mean fallback fails unconditionally with the
NotImplementedError-class failure, which the dispatcher returns to the
caller unchanged instead of looping or falling back to the Linear-mean
rule. -/
theorem identityMeanGuardRaises (reg : Registry) (g : Gaussian)
    (k : Kern) (dIn fuel : Nat) (nghp : Option Nat)
    (hk : k.isLinear = false) (hr : reg.idRule k = none) :
    expectation reg (fuel + 1) (.gaussian g) (some (.mean (.Identity dIn))) none
      (some (.kern k)) (some .InducingPoints) nghp = .error .notImplemented := by
  simp [expectation, hk, hr]

/-- Witness for C1 at a concrete registry, distribution and kernel. -/
theorem identityMeanGuardRaises_witness :
    (Kern.isLinear (.Other 0) = false) ∧ (emptyReg.idRule (.Other 0) = none) ∧
    expectation emptyReg 1 (.gaussian gauss0) (some (.mean (.Identity 1))) none
      (some (.kern (.Other 0))) (some .InducingPoints) none = .error .notImplemented :=
  ⟨rfl, rfl, identityMeanGuardRaises emptyReg gauss0 (.Other 0) 1 0 none rfl rfl⟩

/-- C2: For every Gaussian or MarkovGaussian distribution p and the Linear
kernel with a registered Linear-kernel-specific (kernel, feature,
mean-function) rule, the expectation of (Identity mean, (K, InducingPoints))
equals the adjoint (swap of the last two axes) of the expectation of
((K, InducingPoints), Identity mean), at every fuel bound sufficient on each
side and every nghp. -/
theorem linearKernelTransposeDelegation (reg : Registry)
    (r : ProbDist → Feat → MeanFn → Option Nat → Tensor3)
    (hr : reg.kfmRule .Linear = some r) (p : ProbDist)
    (hp : p.isGaussianOrMarkov = true) (dIn n m : Nat) (nghp : Option Nat) :
    expectation reg (n + 2) p (some (.mean (.Identity dIn))) none
        (some (.kern .Linear)) (some .InducingPoints) nghp
      = Except.map Tensor.adjoint
          (expectation reg (m + 1) p (some (.kern .Linear)) (some .InducingPoints)
            (some (.mean (.Identity dIn))) none none) := by
  cases p with
  | gaussian g => simp [expectation, Kern.isLinear, hr]
  | markov g => simp [expectation, hr]
  | diagonal d => simp [ProbDist.isGaussianOrMarkov] at hp

/-- Witness for C2 at a concrete registry and Gaussian. -/
theorem linearKernelTransposeDelegation_witness :
    (fullReg.kfmRule .Linear = some (fun _ _ _ _ => witT3)) ∧
    ((ProbDist.gaussian gauss0).isGaussianOrMarkov = true) ∧
    expectation fullReg 2 (.gaussian gauss0) (some (.mean (.Identity 1))) none
        (some (.kern .Linear)) (some .InducingPoints) (some 5)
      = Except.map Tensor.adjoint
          (expectation fullReg 1 (.gaussian gauss0) (some (.kern .Linear))
            (some .InducingPoints) (some (.mean (.Identity 1))) none none) :=
  ⟨rfl, rfl,
    linearKernelTransposeDelegation fullReg (fun _ _ _ _ => witT3) rfl
      (.gaussian gauss0) rfl 1 0 0 (some 5)⟩

/-- C3: For every DiagonalGaussian p with mean mu and per-dimension variances
v, and every term pair, the expectation on p equals the expectation on the
full Gaussian with mean mu and covariance diag(v): the diagonal-to-full
conversion fallback is an exact round trip (one unit of fuel is consumed by
the conversion step itself). -/
theorem diagonalGaussianConversionExact (reg : Registry) (d : DiagonalGaussian)
    (o1 o2 : Option Obj) (f1 f2 : Option Feat) (fuel : Nat) (nghp : Option Nat) :
    expectation reg (fuel + 1) (.diagonal d) o1 f1 o2 f2 nghp
      = expectation reg fuel (.gaussian ⟨d.mu, diagMat d.cov⟩) o1 f1 o2 f2 nghp := rfl

/-- C4: For every MarkovGaussian p, calling the dispatcher with only the
first term present equals the same expectation on the Gaussian built from
the first N-1 steps (mean[:-1] and first covariance block [:-1]); with only
the second term present it equals the expectation on the Gaussian built from
steps 1..N (mean[1:] and first covariance block [1:]). -/
theorem markovGaussianSingleTermSlices (reg : Registry) (g : MarkovGaussian)
    (o1 o2 : Obj) (f1 f2 : Option Feat) (fuel : Nat) (nghp : Option Nat) :
    (expectation reg (fuel + 1) (.markov g) (some o1) f1 none none nghp
      = expectation reg fuel (.gaussian ⟨dropLastRows g.mu, covBlockInit g.cov⟩)
          (some o1) f1 none none nghp)
    ∧ (expectation reg (fuel + 1) (.markov g) none f1 (some o2) f2 nghp
      = expectation reg fuel (.gaussian ⟨tailRows g.mu, covBlockTail g.cov⟩)
          (some o2) f2 none none nghp) := by
  constructor
  · cases o1 with
    | kern k => simp [expectation]
    | mean m => cases m <;> simp [expectation]
  · cases o2 with
    | kern k => simp [expectation]
    | mean m => cases m <;> simp [expectation]

/-- Counterexample to C5 as stated: at a concrete MarkovGaussian and a
concrete pair of kernel terms for which no Markov-specific rule is
registered, the fallback's both-terms branch re-dispatches the identical
signature, selects itself again, and exhausts every fuel bound, so
evaluation does not terminate. -/
theorem markovGaussianBothTermsDiverges : markovPairUnregisteredDiverges := by
  intro fuel
  induction fuel with
  | zero => rfl
  | succ n ih => simpa [expectation, emptyReg] using ih

/-- C5 (amended): For every MarkovGaussian p with both terms present, the
fallback re-dispatches the full pair, so that a Markov-specific rule, when
one is registered for the pair, takes precedence over the fallback and
evaluation terminates with that rule's result; when no such rule is
registered the re-dispatch selects the fallback itself again and evaluation
does not terminate. -/
theorem markovGaussianPairSpecificRuleTerminates (reg : Registry)
    (r : MarkovGaussian → Option Nat → Tensor3) (k1 k2 : Kern) (f1 f2 : Option Feat)
    (hr : reg.markovRule (.kern k1) f1 (.kern k2) f2 = some r)
    (g : MarkovGaussian) (fuel : Nat) (nghp : Option Nat) :
    expectation reg (fuel + 1) (.markov g) (some (.kern k1)) f1 (some (.kern k2)) f2 nghp
      = .ok (.t3 (r g nghp)) := by
  simp [expectation, hr]

/-- Witness for the amended C5 at a concrete registry and MarkovGaussian. -/
theorem markovGaussianPairSpecificRuleTerminates_witness :
    (fullReg.markovRule (.kern (.Other 0)) (some .InducingPoints)
        (.kern (.Other 1)) (some .InducingPoints) = some (fun _ _ => witT3)) ∧
    expectation fullReg 1 (.markov markov0) (some (.kern (.Other 0)))
        (some .InducingPoints) (some (.kern (.Other 1))) (some .InducingPoints) none
      = .ok (.t3 witT3) :=
  ⟨rfl,
    markovGaussianPairSpecificRuleTerminates fullReg (fun _ _ => witT3)
      (.Other 0) (.Other 1) (some .InducingPoints) (some .InducingPoints) rfl
      markov0 0 none⟩

/-- C6: For every Gaussian p, Linear mean function with weights A and offset
b, kernel K and the InducingPoints feature for which the delegated
Identity-mean expectation exKxz and plain kernel expectation eKxz are
defined (with exKxz batched over the N rows of the mean), the Linear-mean
rule returns the batched matmul of A-transposed with exKxz plus the outer
product of b with eKxz, an NxQxM tensor. -/
theorem linearMeanRuleFormula (reg : Registry) (g : Gaussian) (A : Tensor2)
    (b : Tensor1) (k : Kern) (exKxz : Tensor3) (eKxz : Tensor2) (fuel : Nat)
    (nghp : Option Nat)
    (hex : expectation reg fuel (.gaussian g) (some (.mean (.Identity g.mu.cols))) none
        (some (.kern k)) (some .InducingPoints) nghp = .ok (.t3 exKxz))
    (hek : expectation reg fuel (.gaussian g) (some (.kern k)) (some .InducingPoints)
        none none nghp = .ok (.t2 eKxz))
    (hdim : exKxz.dim0 = g.mu.rows) :
    expectation reg (fuel + 1) (.gaussian g) (some (.mean (.Linear A b))) none
        (some (.kern k)) (some .InducingPoints) nghp
      = .ok (.t3 (add3 (batchedMatmulLeft (transposeM A) exKxz)
          (outerBroadcast b eKxz))) := by
  simp [expectation, hex, hek, tileMatmul_eq_batched A exKxz g.mu.rows hdim]

/-- Witness for C6 at a concrete registry with both delegated expectations
registered. -/
theorem linearMeanRuleFormula_witness :
    (expectation fullReg 1 (.gaussian gauss0) (some (.mean (.Identity gauss0.mu.cols)))
        none (some (.kern (.Other 0))) (some .InducingPoints) none = .ok (.t3 witT3)) ∧
    (expectation fullReg 1 (.gaussian gauss0) (some (.kern (.Other 0)))
        (some .InducingPoints) none none none = .ok (.t2 witT2)) ∧
    (witT3.dim0 = gauss0.mu.rows) ∧
    expectation fullReg 2 (.gaussian gauss0) (some (.mean (.Linear witA witB))) none
        (some (.kern (.Other 0))) (some .InducingPoints) none
      = .ok (.t3 (add3 (batchedMatmulLeft (transposeM witA) witT3)
          (outerBroadcast witB witT2))) :=
  ⟨rfl, rfl, rfl,
    linearMeanRuleFormula fullReg gauss0 witA witB (.Other 0) witT3 witT2 1 none
      rfl rfl rfl⟩

/-- C7: Every invocation of the adapter's target-log-probability closure on
new unconstrained values overwrites each parameter's unconstrained backing
value with the supplied value, and returns the wrapped callable evaluated on
the constrained parameter values plus, for every parameter with a transform,
the sum of the log-determinant of the transform's forward Jacobian at that
parameter's current (new) unconstrained value. -/
theorem targetLogProbFnAssignsAndCorrects (h : SamplingHelper)
    (vals : List (List Rat)) (hlen : vals.length = h.parameters.length) :
    ((targetLogProbFn h vals).fst.map fun p => p.unconstrainedVariable) = vals
    ∧ (targetLogProbFn h vals).snd
        = h.targetLogProb ((assignParams h.parameters vals).map constrainedValue)
          + jacobianCorrection (assignParams h.parameters vals) := by
  constructor
  · simpa [targetLogProbFn] using assignParams_unconstrained h.parameters vals hlen
  · simp [targetLogProbFn, addLogDetCorrections_eq]

/-- Witness for C7 at a concrete adapter with one transformed parameter. -/
theorem targetLogProbFnAssignsAndCorrects_witness :
    (([[2]] : List (List Rat)).length = witHelper.parameters.length) ∧
    (((targetLogProbFn witHelper [[2]]).fst.map fun p => p.unconstrainedVariable) = [[2]]
      ∧ (targetLogProbFn witHelper [[2]]).snd
          = witHelper.targetLogProb
              ((assignParams witHelper.parameters [[2]]).map constrainedValue)
            + jacobianCorrection (assignParams witHelper.parameters [[2]])) :=
  ⟨rfl, targetLogProbFnAssignsAndCorrects witHelper [[2]] rfl⟩

/-- C8: Constructing the sampling adapter from any parameter list containing
at least one parameter whose prior is absent fails with the
InvalidArgument-class failure, before any adapter state is produced. -/
theorem samplingHelperRejectsMissingPrior (f : List (List Rat) → Rat)
    (ps : List Parameter) (h : ∃ p ∈ ps, p.prior = none) :
    mkSamplingHelper f ps = .error .invalidArgument := by
  obtain ⟨p, hmem, hnone⟩ := h
  have hall : ps.all (fun q => q.prior.isSome) = false := by
    rw [List.all_eq_false]
    exact ⟨p, hmem, by simp [hnone]⟩
  simp [mkSamplingHelper, hall]

/-- Witness for C8 at a concrete parameter list with a missing prior. -/
theorem samplingHelperRejectsMissingPrior_witness :
    (∃ p ∈ [witParamNoPrior], p.prior = none) ∧
    mkSamplingHelper (fun _ => 0) [witParamNoPrior] = .error .invalidArgument :=
  ⟨⟨witParamNoPrior, List.mem_singleton.mpr rfl, rfl⟩,
    samplingHelperRejectsMissingPrior (fun _ => 0) [witParamNoPrior]
      ⟨witParamNoPrior, List.mem_singleton.mpr rfl, rfl⟩⟩

/-- C9: The transpose-delegation rule for (Gaussian or MarkovGaussian,
Identity mean, none, Linear kernel, InducingPoints) does not forward the
nghp extra argument, so its result is identical for any two nghp values; in
contrast, the (Kernel, InducingFeature, MeanFunction) adjoint rule forwards
nghp to its delegated call unchanged. -/
theorem transposeRuleIgnoresNghp (reg : Registry) (p : ProbDist)
    (hp : p.isGaussianOrMarkov = true) (dIn : Nat) (k2 : Kern)
    (hk2 : reg.kfmRule k2 = none) (m : MeanFn) (f : Feat) (fuel : Nat)
    (a b : Option Nat) :
    (expectation reg (fuel + 1) p (some (.mean (.Identity dIn))) none
        (some (.kern .Linear)) (some .InducingPoints) a
      = expectation reg (fuel + 1) p (some (.mean (.Identity dIn))) none
          (some (.kern .Linear)) (some .InducingPoints) b)
    ∧ (expectation reg (fuel + 1) p (some (.kern k2)) (some f) (some (.mean m)) none a
      = Except.map Tensor.adjoint
          (expectation reg fuel p (some (.mean m)) none (some (.kern k2)) (some f) a)) := by
  cases p with
  | gaussian g => constructor <;> simp [expectation, Kern.isLinear, hk2]
  | markov g => constructor <;> simp [expectation, hk2]
  | diagonal d => simp [ProbDist.isGaussianOrMarkov] at hp

/-- Witness for C9 at a concrete Gaussian, with two distinct nghp values. -/
theorem transposeRuleIgnoresNghp_witness :
    ((ProbDist.gaussian gauss0).isGaussianOrMarkov = true) ∧
    (emptyReg.kfmRule (.Other 1) = none) ∧
    ((expectation emptyReg 2 (.gaussian gauss0) (some (.mean (.Identity 1))) none
        (some (.kern .Linear)) (some .InducingPoints) (some 3)
      = expectation emptyReg 2 (.gaussian gauss0) (some (.mean (.Identity 1))) none
          (some (.kern .Linear)) (some .InducingPoints) none)
    ∧ (expectation emptyReg 2 (.gaussian gauss0) (some (.kern (.Other 1)))
          (some .InducingPoints) (some (.mean (.OtherMean 0))) none (some 3)
      = Except.map Tensor.adjoint
          (expectation emptyReg 1 (.gaussian gauss0) (some (.mean (.OtherMean 0))) none
            (some (.kern (.Other 1))) (some .InducingPoints) (some 3)))) :=
  ⟨rfl, rfl,
    transposeRuleIgnoresNghp emptyReg (.gaussian gauss0) rfl 1 (.Other 1) rfl
      (.OtherMean 0) .InducingPoints 1 (some 3) none⟩

/-- C10: For every Gaussian p and kernel K that is not the Linear kernel and
has no kernel-specific Identity-mean rule, the Linear-mean rule delegates to
the Identity-mean expectation, which resolves to the unconditional guard, so
the whole computation fails with the NotImplementedError-class failure
regardless of whether the plain kernel expectation is registered. -/
theorem linearMeanRulePropagatesNotImplemented (reg : Registry) (g : Gaussian)
    (A : Tensor2) (b : Tensor1) (k : Kern) (fuel : Nat) (nghp : Option Nat)
    (hk : k.isLinear = false) (hr : reg.idRule k = none) :
    expectation reg (fuel + 2) (.gaussian g) (some (.mean (.Linear A b))) none
        (some (.kern k)) (some .InducingPoints) nghp = .error .notImplemented := by
  simp [expectation, hk, hr]

/-- Witness for C10 at a concrete registry in which the plain kernel
expectation is registered but no Identity-mean rule is. -/
theorem linearMeanRulePropagatesNotImplemented_witness :
    (Kern.isLinear (.Other 0) = false) ∧
    ({ fullReg with idRule := fun _ => none } : Registry).idRule (.Other 0) = none ∧
    expectation { fullReg with idRule := fun _ => none } 2 (.gaussian gauss0)
        (some (.mean (.Linear witA witB))) none (some (.kern (.Other 0)))
        (some .InducingPoints) none = .error .notImplemented :=
  ⟨rfl, rfl,
    linearMeanRulePropagatesNotImplemented { fullReg with idRule := fun _ => none }
      gauss0 witA witB (.Other 0) 0 none rfl rfl⟩
